import Mathlib

/-!
Verification of the ingestion-and-correlation core of a GPU monitoring tool
(`nvidiagpu_top`). The Rust sources (`src/parser.rs`, `src/data.rs`,
`src/app.rs`) are shallowly embedded: machine integers become `Nat`
(values here never overflow 32/64 bits except where an explicit bound is
modelled in `parseU32`), `Instant` timestamps become `Int` instants passed
explicitly, `f32` percentages (only ever copied, never computed with)
become `ℚ`, `HashMap`s become association lists with insert-by-key, and
Rust's stable `sort_by` becomes `List.insertionSort` with the comparator's
ordering relation.
-/

/-! ### Character/string helpers mirroring Rust `str` operations -/

/-- ASCII whitespace test (the tool output is ASCII, so this coincides with
Rust's `char::is_whitespace` on all inputs considered). -/
def wsChar (c : Char) : Bool :=
  c = ' ' || c = '\t' || c = '\n' || c = '\r'

/-- Split a character list at every separator character, keeping empty
segments — the semantics of Rust's `str::split(sep)`. Always returns at
least one segment. -/
def splitChar (sep : Char) : List Char → List (List Char)
  | [] => [[]]
  | c :: cs =>
    if c = sep then [] :: splitChar sep cs
    else
      match splitChar sep cs with
      | [] => [[c]]
      | h :: t => (c :: h) :: t

/-- Split a character list at every whitespace-predicate character (keeping
empty segments); helper for `splitWhitespace`. -/
def splitPred (p : Char → Bool) : List Char → List (List Char)
  | [] => [[]]
  | c :: cs =>
    if p c then [] :: splitPred p cs
    else
      match splitPred p cs with
      | [] => [[c]]
      | h :: t => (c :: h) :: t

/-- Rust `str::split_whitespace`: split on whitespace runs, dropping empty
segments. -/
def splitWhitespace (s : String) : List String :=
  ((splitPred wsChar s.toList).filter (fun l => !l.isEmpty)).map List.asString

/-- Rust `str::trim`. -/
def trimStr (s : String) : String :=
  (((s.toList.dropWhile wsChar).reverse.dropWhile wsChar).reverse).asString

/-- Accumulate the value of a digit run; `none` on the first non-digit. -/
def digitsValAux (acc : Nat) : List Char → Option Nat
  | [] => some acc
  | c :: cs => if c.isDigit then digitsValAux (acc * 10 + (c.toNat - 48)) cs else none

/-- Rust `str::parse::<u32>()`, as `Option Nat`: an optional leading `+`,
then at least one ASCII digit, and the value must fit in 32 bits. -/
def parseU32 (s : String) : Option Nat :=
  let cs := match s.toList with
    | '+' :: rest => rest
    | cs => cs
  match cs with
  | [] => none
  | _ =>
    match digitsValAux 0 cs with
    | none => none
    | some n => if n < 2 ^ 32 then some n else none

/-! ### `src/parser.rs`: GpuSample (dmon line parser) -/

/-- One device sample from `nvidia-smi dmon` (`GpuSample` in
`src/parser.rs`); every metric field is independently optional. -/
structure GpuSample where
  gpu_idx : Nat
  power_w : Option Nat
  gpu_temp_c : Option Nat
  mem_temp_c : Option Nat
  sm_util : Option Nat
  mem_util : Option Nat
  enc_util : Option Nat
  dec_util : Option Nat
  jpg_util : Option Nat
  ofa_util : Option Nat
  mem_clock_mhz : Option Nat
  gpu_clock_mhz : Option Nat
  deriving DecidableEq, Repr, Inhabited

namespace GpuSample

/-- `GpuSample::parse_optional`: a trimmed `"-"` or empty token is an
absent value; otherwise `u32` parse, with failure mapped to absent. -/
def parse_optional (s : String) : Option Nat :=
  let trimmed := trimStr s
  if trimmed = "-" || trimmed = "" then none else parseU32 trimmed

/-- The body of `GpuSample::parse_line` after whitespace splitting: the
device index must parse; every other field goes through `parse_optional`. -/
def parseFields (parts : List String) : Option GpuSample :=
  match parseU32 (parts.getD 0 "") with
  | none => none
  | some idx =>
    some { gpu_idx := idx
           power_w := parse_optional (parts.getD 1 "")
           gpu_temp_c := parse_optional (parts.getD 2 "")
           mem_temp_c := parse_optional (parts.getD 3 "")
           sm_util := parse_optional (parts.getD 4 "")
           mem_util := parse_optional (parts.getD 5 "")
           enc_util := parse_optional (parts.getD 6 "")
           dec_util := parse_optional (parts.getD 7 "")
           jpg_util := parse_optional (parts.getD 8 "")
           ofa_util := parse_optional (parts.getD 9 "")
           mem_clock_mhz := parse_optional (parts.getD 10 "")
           gpu_clock_mhz := parse_optional (parts.getD 11 "") }

/-- `GpuSample::parse_line`: `none` for header (leading `#`), empty, or
short (< 12 fields) lines; otherwise parse the fields. -/
def parse_line (line : String) : Option GpuSample :=
  let l := trimStr line
  if l.toList.head? = some '#' || l = "" then none
  else
    let parts := splitWhitespace l
    if parts.length < 12 then none
    else parseFields parts

end GpuSample

/-! ### `src/data.rs`: GpuHistory (per-device ring buffer) -/

/-- `TimestampedSample`: a sample plus the instant it was stored. -/
structure TimestampedSample where
  sample : GpuSample
  timestamp : Int
  deriving DecidableEq, Repr

/-- `GpuHistory`: bounded FIFO of timestamped samples (front = oldest). -/
structure GpuHistory where
  samples : List TimestampedSample
  max_samples : Nat
  deriving DecidableEq, Repr

namespace GpuHistory

/-- `GpuHistory::new`. -/
def new (max_samples : Nat) : GpuHistory :=
  { samples := [], max_samples := max_samples }

/-- `GpuHistory::push`: pop the front when already at/above capacity, then
append the new sample stamped with the current instant. -/
def push (h : GpuHistory) (sample : GpuSample) (now : Int) : GpuHistory :=
  let popped := if h.samples.length ≥ h.max_samples then h.samples.drop 1 else h.samples
  { h with samples := popped ++ [{ sample := sample, timestamp := now }] }

/-- `GpuHistory::latest`. -/
def latest (h : GpuHistory) : Option GpuSample :=
  h.samples.getLast?.map (fun ts => ts.sample)

/-- `GpuHistory::len`. -/
def len (h : GpuHistory) : Nat :=
  h.samples.length

/-- `GpuHistory::recent_values`: walk the buffer newest-first, keep the
first `count` samples, extract the metric where present, then reverse back
to oldest-first. -/
def recent_values (h : GpuHistory) (count : Nat) (extractor : GpuSample → Option Nat) :
    List Nat :=
  ((h.samples.reverse.take count).filterMap (fun ts => extractor ts.sample)).reverse

/-- Push a whole list of (sample, instant) pairs in order. -/
def pushMany (h : GpuHistory) (xs : List (GpuSample × Int)) : GpuHistory :=
  xs.foldl (fun h p => h.push p.1 p.2) h

end GpuHistory

/-! ### `src/parser.rs`: the remaining record types -/

/-- One `(device, pid)` row from `nvidia-smi pmon` (`ProcessSample`). -/
structure ProcessSample where
  gpu_idx : Nat
  pid : Nat
  process_type : String
  sm_util : Option Nat
  mem_util : Option Nat
  enc_util : Option Nat
  dec_util : Option Nat
  command : String
  deriving DecidableEq, Repr

/-- One `(pid, device uuid)` VRAM-allocation row (`ComputeApp`). -/
structure ComputeApp where
  pid : Nat
  name : String
  gpu_uuid : String
  vram_used_mib : Nat
  deriving DecidableEq, Repr

/-- One pid row of OS-level process stats (`ProcessSystemInfo`); the
`f32` CPU percentage is modelled exactly as a rational since the code only
ever copies it. -/
structure ProcessSystemInfo where
  pid : Nat
  cpu_percent : ℚ
  rss_kb : Nat
  elapsed : String
  deriving DecidableEq, Repr

/-- Static per-device info from `nvidia-smi --query-gpu` (`GpuInfo`). -/
structure GpuInfo where
  index : Nat
  name : String
  uuid : String
  driver_version : String
  memory_total_mib : Nat
  memory_used_mib : Nat
  memory_free_mib : Nat
  power_limit_w : Option ℚ
  power_draw_w : Option ℚ
  temperature_c : Option Nat
  temperature_limit_c : Option Nat
  pcie_gen_current : Option Nat
  pcie_gen_max : Option Nat
  pcie_width_current : Option Nat
  pcie_width_max : Option Nat
  fan_speed_pct : Option Nat
  pstate : String
  throttle_reasons : List String
  deriving DecidableEq, Repr, Inhabited

/-! ### `src/data.rs`: DataStore -/

/-- `ProcessInfo`: a pmon sample plus the instant it was last seen. -/
structure ProcessInfo where
  sample : ProcessSample
  last_seen : Int
  deriving DecidableEq, Repr

/-- `EnrichedProcess`: the derived row joining the three process sources. -/
structure EnrichedProcess where
  pid : Nat
  command : String
  gpu_idx : Nat
  vram_mib : Nat
  sm_util : Option Nat
  cpu_percent : ℚ
  rss_mb : Nat
  elapsed : String
  deriving DecidableEq, Repr

/-- `HashMap::insert` on an association list: bind `k` to `v`, dropping any
previous binding of `k` and leaving every other key bound as before. A
`HashMap` is unordered, so the list order carries no meaning. -/
def listInsert {κ α : Type} [DecidableEq κ] (m : List (κ × α)) (k : κ) (v : α) :
    List (κ × α) :=
  (k, v) :: m.filter (fun p => p.1 ≠ k)

/-- `HashMap::get` on an association list. -/
def listGet {κ α : Type} [DecidableEq κ] (m : List (κ × α)) (k : κ) : Option α :=
  (m.find? (fun p => p.1 = k)).map (fun p => p.2)

/-- `app.name.split('/').last().unwrap_or(&app.name)`: the final
`/`-separated component of a process name. -/
def lastSlashComponent (name : String) : String :=
  match (splitChar '/' name.toList).getLast? with
  | some cs => cs.asString
  | none => name

/-- Ordering used by `get_enriched_processes`' final `sort_by`: device
index ascending, then VRAM descending. -/
def enrichedLe (a b : EnrichedProcess) : Prop :=
  a.gpu_idx < b.gpu_idx ∨ (a.gpu_idx = b.gpu_idx ∧ b.vram_mib ≤ a.vram_mib)

instance (a b : EnrichedProcess) : Decidable (enrichedLe a b) := by
  unfold enrichedLe; infer_instance

/-- Ordering used by `get_processes`' `sort_by_key` on `(gpu_idx, pid)`. -/
def procLe (p q : ProcessInfo) : Prop :=
  p.sample.gpu_idx < q.sample.gpu_idx ∨
    (p.sample.gpu_idx = q.sample.gpu_idx ∧ p.sample.pid ≤ q.sample.pid)

instance (p q : ProcessInfo) : Decidable (procLe p q) := by
  unfold procLe; infer_instance

/-- `DataStore`: the correlation store (topology omitted — no claim
touches it). `HashMap` fields are association lists. -/
structure DataStore where
  gpus : List (Nat × GpuHistory)
  max_samples : Nat
  total_samples : Nat
  processes : List ((Nat × Nat) × ProcessInfo)
  compute_apps : List ComputeApp
  process_sys_info : List (Nat × ProcessSystemInfo)
  gpu_info : List (Nat × GpuInfo)
  deriving DecidableEq, Repr

namespace DataStore

/-- `DataStore::new`. -/
def new (history_seconds : Nat) : DataStore :=
  { gpus := []
    max_samples := history_seconds
    total_samples := 0
    processes := []
    compute_apps := []
    process_sys_info := []
    gpu_info := [] }

/-- `DataStore::add_sample`: push into the device's history, creating it
at `max_samples` capacity on first sight; bump the total counter. -/
def add_sample (s : DataStore) (sample : GpuSample) (now : Int) : DataStore :=
  let gpu_idx := sample.gpu_idx
  let h := (listGet s.gpus gpu_idx).getD (GpuHistory.new s.max_samples)
  { s with gpus := listInsert s.gpus gpu_idx (h.push sample now)
           total_samples := s.total_samples + 1 }

/-- `DataStore::add_process_sample`: upsert by `(gpu_idx, pid)` with a
fresh timestamp, then retain only entries seen within the last 5 seconds. -/
def add_process_sample (s : DataStore) (sample : ProcessSample) (now : Int) : DataStore :=
  let key := (sample.gpu_idx, sample.pid)
  let inserted := listInsert s.processes key { sample := sample, last_seen := now }
  let cutoff := now - 5
  { s with processes := inserted.filter (fun p => cutoff < p.2.last_seen) }

/-- `DataStore::get_processes`: all live pmon entries sorted by
`(gpu_idx, pid)`. -/
def get_processes (s : DataStore) : List ProcessInfo :=
  List.insertionSort procLe (s.processes.map (fun p => p.2))

/-- `DataStore::update_compute_apps`: wholesale replacement. -/
def update_compute_apps (s : DataStore) (apps : List ComputeApp) : DataStore :=
  { s with compute_apps := apps }

/-- `DataStore::update_process_sys_info`: clear, then insert each batch
entry keyed by pid — wholesale replacement of the map. -/
def update_process_sys_info (s : DataStore) (infos : List ProcessSystemInfo) : DataStore :=
  { s with process_sys_info := infos.foldl (fun m i => listInsert m i.pid i) [] }

/-- `DataStore::update_gpu_info`: merge per device index (overwrite per
key, other keys untouched). -/
def update_gpu_info (s : DataStore) (info : List GpuInfo) : DataStore :=
  { s with gpu_info := info.foldl (fun m g => listInsert m g.index g) s.gpu_info }

/-- The enrichment of a single `ComputeApp` row inside
`get_enriched_processes`: resolve the device UUID against the current
device-info snapshot (default index 0), then join pmon by
`(gpu_idx, pid)` and ps info by pid, defaulting missing fields. -/
def enrichOne (s : DataStore) (app : ComputeApp) : EnrichedProcess :=
  let uuid_to_idx := s.gpu_info.map (fun p => (p.2.uuid, p.2.index))
  let gpu_idx := ((uuid_to_idx.find? (fun q => q.1 = app.gpu_uuid)).map (fun q => q.2)).getD 0
  let pmon := listGet s.processes (gpu_idx, app.pid)
  let sys_info := listGet s.process_sys_info app.pid
  { pid := app.pid
    command := lastSlashComponent app.name
    gpu_idx := gpu_idx
    vram_mib := app.vram_used_mib
    sm_util := pmon.bind (fun p => p.sample.sm_util)
    cpu_percent := (sys_info.map (fun i => i.cpu_percent)).getD 0
    rss_mb := (sys_info.map (fun i => i.rss_kb / 1024)).getD 0
    elapsed := (sys_info.map (fun i => i.elapsed)).getD "" }

/-- `DataStore::get_enriched_processes`: one row per current ComputeApp,
sorted by device index ascending then VRAM descending. -/
def get_enriched_processes (s : DataStore) : List EnrichedProcess :=
  List.insertionSort enrichedLe (s.compute_apps.map (enrichOne s))

end DataStore

/-! ### `src/process.rs` messages and the `src/app.rs` message loop -/

/-- `NvidiaMessage` (`src/process.rs`). -/
inductive NvidiaMessage where
  | gpuSampleMsg (sample : GpuSample)
  | processSampleMsg (sample : ProcessSample)
  | gpuInfoMsg (info : List GpuInfo)
  | computeAppsMsg (apps : List ComputeApp)
  | processSystemInfoMsg (infos : List ProcessSystemInfo)
  | errorMsg (e : String)
  | exitedMsg (which : String)
  deriving DecidableEq, Repr

/-- The state of `App` that the message loop mutates (`src/app.rs`);
view/overlay navigation state is out of scope. -/
structure AppState where
  data : DataStore
  error : Option String
  deriving DecidableEq, Repr

/-- One iteration of the `while let Ok(msg) = rx.try_recv()` match in
`App::run`: apply a message to the store, updating the single
most-recent-error slot exactly as the source does. -/
def AppState.applyMessage (a : AppState) (msg : NvidiaMessage) (now : Int) : AppState :=
  match msg with
  | .gpuSampleMsg sample => { a with data := a.data.add_sample sample now, error := none }
  | .processSampleMsg sample => { a with data := a.data.add_process_sample sample now }
  | .gpuInfoMsg info => { a with data := a.data.update_gpu_info info }
  | .computeAppsMsg apps => { a with data := a.data.update_compute_apps apps }
  | .processSystemInfoMsg infos => { a with data := a.data.update_process_sys_info infos }
  | .errorMsg e => { a with error := some e }
  | .exitedMsg which => { a with error := some (which ++ " exited") }

/-! ### Concrete fixtures used by witnesses and counterexamples -/

/-- A device sample with every metric absent (Rust `GpuSample::default`). -/
def sampleBlank : GpuSample :=
  { gpu_idx := 0, power_w := none, gpu_temp_c := none, mem_temp_c := none,
    sm_util := none, mem_util := none, enc_util := none, dec_util := none,
    jpg_util := none, ofa_util := none, mem_clock_mhz := none, gpu_clock_mhz := none }

/-- A device sample whose SM utilization is present. -/
def sampleSm50 : GpuSample :=
  { sampleBlank with sm_util := some 50 }

/-- Two distinguishable device samples for the ring-buffer witness. -/
def sampleIdx1 : GpuSample :=
  { sampleBlank with gpu_idx := 1 }

/-- See `sampleIdx1`. -/
def sampleIdx2 : GpuSample :=
  { sampleBlank with gpu_idx := 2 }

/-- See `sampleIdx1`. -/
def sampleIdx3 : GpuSample :=
  { sampleBlank with gpu_idx := 3 }

/-- A pmon row for the staleness scenario. -/
def psampleC2 : ProcessSample :=
  { gpu_idx := 0, pid := 100, process_type := "C", sm_util := some 42,
    mem_util := none, enc_util := none, dec_util := none, command := "python" }

/-- Store after inserting `psampleC2` at instant 0 and applying no further
messages. -/
def storeC2 : DataStore :=
  (DataStore.new 300).add_process_sample psampleC2 0

/-- Device info for the join example: index 1, uuid GPU-aaa. -/
def gpuInfoC3 : GpuInfo :=
  { (default : GpuInfo) with index := 1, uuid := "GPU-aaa" }

/-- VRAM-allocation row for the join example. -/
def appC3 : ComputeApp :=
  { pid := 100, name := "/usr/bin/python", gpu_uuid := "GPU-aaa", vram_used_mib := 512 }

/-- pmon row for the join example. -/
def psC3 : ProcessSample :=
  { gpu_idx := 1, pid := 100, process_type := "C", sm_util := some 42,
    mem_util := none, enc_util := none, dec_util := none, command := "python" }

/-- OS process stats for the join example. -/
def sysC3 : ProcessSystemInfo :=
  { pid := 100, cpu_percent := 3.5, rss_kb := 204800, elapsed := "00:10:00" }

/-- The store of the join-correctness example, built through the store's
own operations. -/
def storeC3 : DataStore :=
  ((((DataStore.new 300).update_gpu_info [gpuInfoC3]).update_compute_apps
      [appC3]).add_process_sample psC3 0).update_process_sys_info [sysC3]

/-- The enriched row the join example must produce. -/
def rowC3 : EnrichedProcess :=
  { pid := 100, command := "python", gpu_idx := 1, vram_mib := 512,
    sm_util := some 42, cpu_percent := 3.5, rss_mb := 200, elapsed := "00:10:00" }

/-- History whose newest sample lacks the SM metric while the older one has
it: distinguishes take-then-filter from filter-then-take. -/
def histC8 : GpuHistory :=
  (GpuHistory.new 10).pushMany [(sampleSm50, 0), (sampleBlank, 1)]

/-- OS process stats fixtures for the replacement scenario. -/
def sysPid1 : ProcessSystemInfo :=
  { pid := 1, cpu_percent := 1, rss_kb := 1024, elapsed := "00:01:00" }

/-- See `sysPid1`. -/
def sysPid2 : ProcessSystemInfo :=
  { pid := 2, cpu_percent := 2, rss_kb := 2048, elapsed := "00:02:00" }

/-- See `sysPid1`. -/
def sysPid3 : ProcessSystemInfo :=
  { pid := 3, cpu_percent := 3, rss_kb := 3072, elapsed := "00:03:00" }
/-- History of two samples that both carry the SM metric. -/
def histSm2 : GpuHistory :=
  (GpuHistory.new 10).pushMany [(sampleSm50, 0), (sampleSm50, 1)]

/-! ### Helper lemmas -/

/-- `filterMap` keeps the length when the function succeeds everywhere. -/
theorem length_filterMap_of_isSome {α β : Type} (f : α → Option β) :
    ∀ l : List α, (∀ x ∈ l, (f x).isSome) → (l.filterMap f).length = l.length := by
  intro l
  induction l with
  | nil => intro _; rfl
  | cons x xs ih =>
    intro hall
    have hx : (f x).isSome := hall x (by simp)
    obtain ⟨b, hb⟩ := Option.isSome_iff_exists.mp hx
    simp [List.filterMap_cons, hb, ih fun y hy => hall y (by simp [hy])]

/-- `splitChar` always yields at least one segment. -/
theorem splitChar_ne_nil (sep : Char) : ∀ cs : List Char, splitChar sep cs ≠ [] := by
  intro cs
  induction cs with
  | nil => simp [splitChar]
  | cons c cs ih =>
    by_cases h : c = sep
    · simp [splitChar, h]
    · simp only [splitChar, if_neg h]
      cases hs : splitChar sep cs with
      | nil => exact absurd hs ih
      | cons hd tl => simp

/-- A name without the separator splits into the single whole segment. -/
theorem splitChar_of_not_mem (sep : Char) :
    ∀ cs : List Char, sep ∉ cs → splitChar sep cs = [cs] := by
  intro cs
  induction cs with
  | nil => intro _; rfl
  | cons c cs ih =>
    intro hmem
    have hc : ¬ c = sep := fun h => hmem (h ▸ List.mem_cons_self c cs)
    have hcs : sep ∉ cs := fun h => hmem (List.mem_cons_of_mem c h)
    simp only [splitChar, if_neg hc, ih hcs]
theorem find?_filter_ne {κ α : Type} [DecidableEq κ] (k k' : κ) (hk : k' ≠ k) :
    ∀ m : List (κ × α), (m.filter (fun p => p.1 ≠ k)).find? (fun p => p.1 = k') =
      m.find? (fun p => p.1 = k') := by
  intro m
  induction m with
  | nil => rfl
  | cons x xs ih =>
    by_cases hx : x.1 = k
    · have h2 : (decide (x.1 = k') : Bool) = false := by
        rw [hx]; exact decide_eq_false (fun h => hk h.symm)
      have hfil : List.filter (fun p => decide (p.1 ≠ k)) (x :: xs) =
          List.filter (fun p => decide (p.1 ≠ k)) xs := by
        rw [List.filter_cons]
        simp [hx]
      rw [hfil, ih, List.find?_cons, h2]
    · have hfil : List.filter (fun p => decide (p.1 ≠ k)) (x :: xs) =
          x :: List.filter (fun p => decide (p.1 ≠ k)) xs := by
        rw [List.filter_cons]
        simp [hx]
      rw [hfil, List.find?_cons, List.find?_cons]
      cases hfx : (decide (x.1 = k') : Bool) with
      | true => rfl
      | false => exact ih

theorem listGet_listInsert {κ α : Type} [DecidableEq κ] (m : List (κ × α)) (k k' : κ)
    (v : α) : listGet (listInsert m k v) k' = if k' = k then some v else listGet m k' := by
  by_cases hk : k' = k
  · subst hk
    simp [listGet, listInsert, List.find?_cons]
  · rw [if_neg hk]
    unfold listGet listInsert
    have hhead : (decide ((k, v).1 = k') : Bool) = false :=
      decide_eq_false (fun h => hk h.symm)
    rw [List.find?_cons, hhead]
    rw [find?_filter_ne k k' hk]
theorem pushMany_samples_eq (c : Nat) (hc : 1 ≤ c) (xs : List (GpuSample × Int)) :
    ∀ h : GpuHistory, h.max_samples = c → h.samples.length ≤ c →
      (h.pushMany xs).samples =
        (h.samples ++ xs.map (fun p => TimestampedSample.mk p.1 p.2)).drop
          ((h.samples.length + xs.length) - c) := by
  induction xs with
  | nil =>
    intro h _ hlen
    simp [GpuHistory.pushMany, Nat.sub_eq_zero_of_le hlen]
  | cons x xs ih =>
    intro h hmax hlen
    have hstep : h.pushMany (x :: xs) = (h.push x.1 x.2).pushMany xs := rfl
    rw [hstep]
    by_cases hfull : h.samples.length ≥ h.max_samples
    · have hlenc : h.samples.length = c := le_antisymm hlen (hmax ▸ hfull)
      have hpush : (h.push x.1 x.2).samples =
          h.samples.drop 1 ++ [TimestampedSample.mk x.1 x.2] := by
        simp [GpuHistory.push, if_pos hfull]
      have hlen1 : (h.push x.1 x.2).samples.length = c := by
        rw [hpush, List.length_append, List.length_drop, hlenc]
        simp only [List.length_singleton]
        omega
      rw [ih (h.push x.1 x.2) hmax (le_of_eq hlen1), hpush]
      have harith : ((h.samples.drop 1 ++ [TimestampedSample.mk x.1 x.2]).length +
          xs.length) - c = xs.length := by
        rw [List.length_append, List.length_drop, hlenc]
        simp only [List.length_singleton]
        omega
      have harith2 : (h.samples.length + (x :: xs).length) - c = xs.length + 1 := by
        rw [hlenc, List.length_cons]
        omega
      rw [harith, harith2]
      have hmapcons : (x :: xs).map (fun p => TimestampedSample.mk p.1 p.2) =
          TimestampedSample.mk x.1 x.2 :: xs.map (fun p => TimestampedSample.mk p.1 p.2) := rfl
      rw [hmapcons]
      have key : List.drop (xs.length + 1) (h.samples ++ TimestampedSample.mk x.1 x.2 ::
            xs.map (fun p => TimestampedSample.mk p.1 p.2)) =
          List.drop xs.length ((h.samples.drop 1 ++ [TimestampedSample.mk x.1 x.2]) ++
            xs.map (fun p => TimestampedSample.mk p.1 p.2)) := by
        rw [show xs.length + 1 = 1 + xs.length by omega, ← List.drop_drop]
        rw [List.drop_append_of_le_length (show 1 ≤ h.samples.length by omega)]
        rw [List.append_assoc]
        rfl
      rw [key]
    · have hlt : h.samples.length < c := by
        rw [hmax] at hfull
        omega
      have hpush : (h.push x.1 x.2).samples =
          h.samples ++ [TimestampedSample.mk x.1 x.2] := by
        simp [GpuHistory.push, if_neg hfull]
      have hlen1 : (h.push x.1 x.2).samples.length ≤ c := by
        rw [hpush, List.length_append]
        simp only [List.length_singleton]
        omega
      rw [ih (h.push x.1 x.2) hmax hlen1, hpush]
      have harith : ((h.samples ++ [TimestampedSample.mk x.1 x.2]).length + xs.length) - c =
          (h.samples.length + (x :: xs).length) - c := by
        simp only [List.length_append, List.length_cons, List.length_singleton, List.length_nil]
        omega
      rw [harith]
      congr 1
      simp [List.append_assoc]

/-! ### Claim theorems -/

/-- Claim C1 (amended to capacities of at least 1): after inserting `c + k`
samples into an empty `GpuHistory` of capacity `c ≥ 1`, its length is
exactly `c` and its oldest remaining sample is the `(k+1)`-th inserted
one; and after any insertion sequence the length never exceeds `c`. At
capacity 0 the bound fails (see the counterexample). -/
theorem claim1_ring_buffer (c k : Nat) (xs : List (GpuSample × Int)) (hc : 1 ≤ c)
    (hlen : xs.length = c + k) :
    ((GpuHistory.new c).pushMany xs).len = c ∧
    ((GpuHistory.new c).pushMany xs).samples.head?.map (fun ts => ts.sample) =
      xs[k]?.map (fun p => p.1) ∧
    (∀ ys : List (GpuSample × Int), ((GpuHistory.new c).pushMany ys).len ≤ c) := by
  have hsamp : ((GpuHistory.new c).pushMany xs).samples =
      (xs.map (fun p => TimestampedSample.mk p.1 p.2)).drop k := by
    have hbase := pushMany_samples_eq c hc xs (GpuHistory.new c) rfl (by simp [GpuHistory.new])
    rw [hbase]
    show ((([] : List TimestampedSample)) ++ _).drop ((([] : List TimestampedSample)).length + xs.length - c) = _
    rw [List.nil_append, List.length_nil, Nat.zero_add, hlen, Nat.add_sub_cancel_left]
  refine ⟨?_, ?_, ?_⟩
  · rw [GpuHistory.len, hsamp, List.length_drop, List.length_map, hlen]
    omega
  · rw [hsamp, List.head?_drop, List.getElem?_map]
    cases xs[k]? with
    | none => rfl
    | some p => rfl
  · intro ys
    have hys := pushMany_samples_eq c hc ys (GpuHistory.new c) rfl (by simp [GpuHistory.new])
    rw [GpuHistory.len, hys, List.length_drop]
    have : ((GpuHistory.new c).samples ++
        ys.map (fun p => TimestampedSample.mk p.1 p.2)).length = ys.length := by
      show (([] : List TimestampedSample) ++ _).length = ys.length
      rw [List.nil_append, List.length_map]
    rw [this]
    show ys.length - ((([] : List TimestampedSample)).length + ys.length - c) ≤ c
    rw [List.length_nil, Nat.zero_add]
    omega

/-- Claim C1 counterexample: at capacity 0 a single push leaves one stored
sample, so `|DeviceHistory| ≤ capacity` fails for capacity 0. -/
theorem claim1_capacity_zero_cex :
    ¬ (((GpuHistory.new 0).push sampleBlank 0).len ≤ (GpuHistory.new 0).max_samples) := by
  decide

/-- Witness for claim C1: capacity 2, three inserted samples (k = 1), the
oldest survivor is the 2nd inserted sample. -/
theorem claim1_ring_buffer_wit :
    ((GpuHistory.new 2).pushMany [(sampleIdx1, 0), (sampleIdx2, 1), (sampleIdx3, 2)]).len = 2 ∧
    ((GpuHistory.new 2).pushMany
        [(sampleIdx1, 0), (sampleIdx2, 1), (sampleIdx3, 2)]).samples.head?.map
        (fun ts => ts.sample) =
      [(sampleIdx1, (0 : Int)), (sampleIdx2, 1), (sampleIdx3, 2)][1]?.map (fun p => p.1) ∧
    ((GpuHistory.new 2).pushMany [(sampleIdx1, 0), (sampleIdx2, 1)]).len ≤ 2 :=
  have h := claim1_ring_buffer 2 1 [(sampleIdx1, 0), (sampleIdx2, 1), (sampleIdx3, 2)]
    (by decide) (by decide)
  ⟨h.1, h.2.1, h.2.2 [(sampleIdx1, 0), (sampleIdx2, 1)]⟩
/-- Claim C2 (amended): a ProcessSample inserted at time `T` and never
refreshed is removed by the first insertion pass occurring at any time
`now ≥ T + 5s` — any insertion sweeps all stale entries, not only a
conflicting one. A query alone never removes entries (`get_processes`
returns exactly the stored entries, reordered), so absent a later
insertion pass the stale entry is still returned (see the
counterexample). -/
theorem claim2_staleness (s : DataStore) (ps : ProcessSample) (now T : Int)
    (hT : T + 5 ≤ now) :
    (∀ p ∈ (s.add_process_sample ps now).processes, p.2.last_seen ≠ T) ∧
    (s.get_processes).length = s.processes.length := by
  constructor
  · intro p hp
    have hmem : p ∈ (listInsert s.processes (ps.gpu_idx, ps.pid)
        (ProcessInfo.mk ps now)).filter (fun q => decide (now - 5 < q.2.last_seen)) := hp
    rw [List.mem_filter] at hmem
    have hlt : now - 5 < p.2.last_seen := of_decide_eq_true hmem.2
    omega
  · unfold DataStore.get_processes
    rw [List.length_insertionSort, List.length_map]

/-- Claim C2 counterexample: the sample is inserted at `T = 0` and no
further message arrives, so at query time 5 (`≥ T + 5s`) the store is
still `storeC2` — and the query still returns the entry, which the claim
says must be absent. -/
theorem claim2_stale_query_cex :
    (0 : Int) + 5 ≤ 5 ∧ (storeC2.get_processes).map (fun p => p.sample.pid) = [100] := by
  constructor
  · decide
  · decide

/-- Witness for claim C2: an insertion pass at instant 5 sweeps an entry
inserted at instant 0. -/
theorem claim2_staleness_wit :
    (∀ p ∈ ((DataStore.new 300).add_process_sample psampleC2 5).processes,
      p.2.last_seen ≠ (0 : Int)) ∧
    ((DataStore.new 300).get_processes).length = (DataStore.new 300).processes.length :=
  claim2_staleness (DataStore.new 300) psampleC2 5 0 (by decide)

/-- Claim C8 (amended): `recent_values` returns the values of the chosen
metric present among the last `min count len` samples, oldest-first (the
filtering happens after the window is taken); when the metric is present
in every sample of that window, exactly `min count len` values are
returned. It does not return the last `count` present values when the
window contains metric-less samples (see the counterexample). -/
theorem claim8_recent_values (h : GpuHistory) (count : Nat) (f : GpuSample → Option Nat) :
    h.recent_values count f =
      (h.samples.drop (h.samples.length - count)).filterMap (fun ts => f ts.sample) ∧
    ((∀ ts ∈ h.samples.drop (h.samples.length - count), (f ts.sample).isSome) →
      (h.recent_values count f).length = min count h.samples.length) := by
  have hchar : h.recent_values count f =
      (h.samples.drop (h.samples.length - count)).filterMap (fun ts => f ts.sample) := by
    unfold GpuHistory.recent_values
    rw [List.take_reverse, List.filterMap_reverse, List.reverse_reverse]
  refine ⟨hchar, fun hall => ?_⟩
  rw [hchar, length_filterMap_of_isSome _ _ hall, List.length_drop]
  omega

/-- Claim C8 counterexample: the history holds one sample with the metric
and a newer one without it; one present value is stored, yet the
recent-1 query returns no values because it windows before filtering. -/
theorem claim8_recent_values_cex :
    histC8.recent_values 1 (fun s => s.sm_util) = [] ∧
    (histC8.samples.filterMap (fun ts => ts.sample.sm_util)).length = 1 := by
  constructor
  · decide
  · decide

/-- Witness for claim C8: a two-sample history with the metric everywhere
returns exactly `min 1 2 = 1` value. -/
theorem claim8_recent_values_wit :
    histSm2.recent_values 1 (fun s => s.sm_util) =
      (histSm2.samples.drop (histSm2.samples.length - 1)).filterMap
        (fun ts => ts.sample.sm_util) ∧
    (histSm2.recent_values 1 (fun s => s.sm_util)).length = min 1 histSm2.samples.length :=
  have h := claim8_recent_values histSm2 1 (fun s => s.sm_util)
  ⟨h.1, h.2 (by decide)⟩
/-- Folding a batch whose pids all differ from `pid` does not change what
`pid` maps to. -/
theorem listGet_foldl_sysInsert_of_notmem (pid : Nat) :
    ∀ (b : List ProcessSystemInfo) (m : List (Nat × ProcessSystemInfo)),
      (∀ i ∈ b, i.pid ≠ pid) →
      listGet (b.foldl (fun m i => listInsert m i.pid i) m) pid = listGet m pid := by
  intro b
  induction b with
  | nil => intro m _; rfl
  | cons i b ih =>
    intro m hall
    have hstep : (i :: b).foldl (fun m j => listInsert m j.pid j) m =
        b.foldl (fun m j => listInsert m j.pid j) (listInsert m i.pid i) := rfl
    rw [hstep, ih _ fun j hj => hall j (List.mem_cons_of_mem i hj)]
    rw [listGet_listInsert]
    exact if_neg fun h => hall i (List.mem_cons_self i b) h.symm

/-- Folding a batch containing `pid` makes the lookup succeed. -/
theorem listGet_foldl_sysInsert_of_mem (pid : Nat) :
    ∀ (b : List ProcessSystemInfo) (m : List (Nat × ProcessSystemInfo)),
      (∃ i ∈ b, i.pid = pid) →
      (listGet (b.foldl (fun m i => listInsert m i.pid i) m) pid).isSome := by
  intro b
  induction b with
  | nil =>
    intro m hex
    obtain ⟨i, hi, _⟩ := hex
    exact absurd hi (List.not_mem_nil i)
  | cons i b ih =>
    intro m hex
    have hstep : (i :: b).foldl (fun m j => listInsert m j.pid j) m =
        b.foldl (fun m j => listInsert m j.pid j) (listInsert m i.pid i) := rfl
    rw [hstep]
    by_cases hb : ∃ j ∈ b, j.pid = pid
    · exact ih _ hb
    · obtain ⟨j, hj, hjpid⟩ := hex
      have hji : j = i := by
        rcases List.mem_cons.mp hj with h | h
        · exact h
        · exact absurd ⟨j, h, hjpid⟩ hb
      have hipid : i.pid = pid := hji ▸ hjpid
      have hall : ∀ j ∈ b, j.pid ≠ pid := fun j hjb hjp => hb ⟨j, hjb, hjp⟩
      rw [listGet_foldl_sysInsert_of_notmem pid b _ hall, listGet_listInsert,
        if_pos hipid.symm]
      rfl

/-- Claim C3: the documented join example — one device (index 1, uuid
GPU-aaa), one VRAM row (pid 100, 512 MiB), a matching pmon row (SM 42%)
and ps row (CPU 3.5%, RSS 204800 KB, elapsed 00:10:00) produce exactly the
expected enriched row (device 1, 512 MiB, SM 42%, CPU 3.5%, 200 MB,
"00:10:00"). -/
theorem claim3_join_example : storeC3.get_enriched_processes = [rowC3] := rfl

/-- Claim C6: an OS-process-stats batch wholesale-replaces the previous
map — after applying batch `b1` then `b2`, a pid lookup succeeds exactly
for the pids of `b2`; pids only in `b1` are gone. -/
theorem claim6_replacement (s : DataStore) (b1 b2 : List ProcessSystemInfo) (pid : Nat) :
    ((∀ i ∈ b2, i.pid ≠ pid) →
      listGet ((s.update_process_sys_info b1).update_process_sys_info b2).process_sys_info
        pid = none) ∧
    ((∃ i ∈ b2, i.pid = pid) →
      (listGet ((s.update_process_sys_info b1).update_process_sys_info b2).process_sys_info
        pid).isSome) := by
  have hfield : ((s.update_process_sys_info b1).update_process_sys_info b2).process_sys_info
      = b2.foldl (fun m i => listInsert m i.pid i) [] := rfl
  constructor
  · intro hall
    rw [hfield, listGet_foldl_sysInsert_of_notmem pid b2 [] hall]
    rfl
  · intro hex
    rw [hfield]
    exact listGet_foldl_sysInsert_of_mem pid b2 [] hex

/-- Witness for claim C6: batches for pid sets 1,2 then 2,3 — pid 1 is
gone, pid 3 is present. -/
theorem claim6_replacement_wit :
    listGet (((DataStore.new 300).update_process_sys_info
        [sysPid1, sysPid2]).update_process_sys_info
        [sysPid2, sysPid3]).process_sys_info 1 = none ∧
    (listGet (((DataStore.new 300).update_process_sys_info
        [sysPid1, sysPid2]).update_process_sys_info
        [sysPid2, sysPid3]).process_sys_info 3).isSome :=
  ⟨(claim6_replacement (DataStore.new 300) [sysPid1, sysPid2] [sysPid2, sysPid3] 1).1
      (by decide),
   (claim6_replacement (DataStore.new 300) [sysPid1, sysPid2] [sysPid2, sysPid3] 3).2
      (by decide)⟩

/-- Claim C9: the error state is a single most-recent-error slot — an
`Error` or `Exited` message overwrites it, a parsed device sample clears
it, and no other message kind touches it. -/
theorem claim9_error_slot (a : AppState) (now : Int) (e w : String) (gs : GpuSample)
    (psm : ProcessSample) (info : List GpuInfo) (apps : List ComputeApp)
    (infos : List ProcessSystemInfo) :
    (a.applyMessage (.errorMsg e) now).error = some e ∧
    (a.applyMessage (.exitedMsg w) now).error = some (w ++ " exited") ∧
    (a.applyMessage (.gpuSampleMsg gs) now).error = none ∧
    (a.applyMessage (.processSampleMsg psm) now).error = a.error ∧
    (a.applyMessage (.gpuInfoMsg info) now).error = a.error ∧
    (a.applyMessage (.computeAppsMsg apps) now).error = a.error ∧
    (a.applyMessage (.processSystemInfoMsg infos) now).error = a.error :=
  ⟨rfl, rfl, rfl, rfl, rfl, rfl, rfl⟩
/-- Membership in the enriched view: exactly the enrichments of the
current ComputeApp rows. -/
theorem mem_get_enriched (s : DataStore) (row : EnrichedProcess) :
    row ∈ s.get_enriched_processes ↔ ∃ app ∈ s.compute_apps, s.enrichOne app = row := by
  unfold DataStore.get_enriched_processes
  rw [List.mem_insertionSort, List.mem_map]

/-- When no current device info carries the row's UUID, the join falls
back to device index 0. -/
theorem enrichOne_gpu_idx_of_unresolved (s : DataStore) (app : ComputeApp)
    (hno : ∀ p ∈ s.gpu_info, p.2.uuid ≠ app.gpu_uuid) :
    (s.enrichOne app).gpu_idx = 0 := by
  have hfind : (s.gpu_info.map (fun p => (p.2.uuid, p.2.index))).find?
      (fun q => q.1 = app.gpu_uuid) = none := by
    rw [List.find?_eq_none]
    intro x hx
    obtain ⟨p, hp, rfl⟩ := List.mem_map.mp hx
    simp only [decide_eq_true_eq]
    exact hno p hp
  show (((s.gpu_info.map (fun p => (p.2.uuid, p.2.index))).find?
      (fun q => q.1 = app.gpu_uuid)).map (fun q => q.2)).getD 0 = 0
  rw [hfind]
  rfl

/-- With no matching pmon entry and no matching ps entry, the enriched
fields from those sources are the defaults. -/
theorem enrichOne_defaults (s : DataStore) (app : ComputeApp)
    (hpm : ∀ p ∈ s.processes, p.1.2 ≠ app.pid)
    (hsy : ∀ q ∈ s.process_sys_info, q.1 ≠ app.pid) :
    (s.enrichOne app).sm_util = none ∧ (s.enrichOne app).cpu_percent = 0 ∧
    (s.enrichOne app).rss_mb = 0 ∧ (s.enrichOne app).elapsed = "" := by
  have hpmon : ∀ g : Nat, listGet s.processes (g, app.pid) = none := by
    intro g
    unfold listGet
    rw [List.find?_eq_none.mpr ?safe]
    · rfl
    case safe =>
      intro x hx
      simp only [decide_eq_true_eq]
      intro hkey
      exact hpm x hx (by rw [hkey])
  have hsys : listGet s.process_sys_info app.pid = none := by
    unfold listGet
    rw [List.find?_eq_none.mpr ?safe2]
    · rfl
    case safe2 =>
      intro x hx
      simp only [decide_eq_true_eq]
      intro hkey
      exact hsy x hx hkey
  unfold DataStore.enrichOne
  dsimp only
  rw [hpmon, hsys]
  exact ⟨rfl, rfl, rfl, rfl⟩
/-- Claim C4: the UUID→index mapping is taken from the current DeviceInfo
snapshot each time `get_enriched_processes` runs — a row whose UUID is
unknown in the current snapshot joins to device index 0 (still producing a
row), and the same store queried after a DeviceInfo refresh resolves the
same UUID to the refreshed index. -/
theorem claim4_uuid_fallback (s : DataStore) (app : ComputeApp) (g : GpuInfo)
    (happ : app ∈ s.compute_apps)
    (hno : ∀ p ∈ s.gpu_info, p.2.uuid ≠ app.gpu_uuid) :
    (∃ row ∈ s.get_enriched_processes,
      row.pid = app.pid ∧ row.gpu_idx = 0 ∧ row.vram_mib = app.vram_used_mib) ∧
    (g.uuid = app.gpu_uuid → s.compute_apps = [app] → s.gpu_info = [] →
      ((s.update_gpu_info [g]).get_enriched_processes).map (fun r => r.gpu_idx) =
        [g.index] ∧
      (s.get_enriched_processes).map (fun r => r.gpu_idx) = [0]) := by
  constructor
  · refine ⟨s.enrichOne app, (mem_get_enriched s _).mpr ⟨app, happ, rfl⟩, rfl,
      enrichOne_gpu_idx_of_unresolved s app hno, rfl⟩
  · intro hg happs hginfo
    have hgi : (s.update_gpu_info [g]).gpu_info = [(g.index, g)] := by
      show [g].foldl (fun m x => listInsert m x.index x) s.gpu_info = _
      rw [hginfo]
      rfl
    have hgidx : ((s.update_gpu_info [g]).enrichOne app).gpu_idx = g.index := by
      show ((((s.update_gpu_info [g]).gpu_info.map (fun p => (p.2.uuid, p.2.index))).find?
        (fun q => q.1 = app.gpu_uuid)).map (fun q => q.2)).getD 0 = g.index
      rw [hgi]
      have : (([(g.index, g)].map (fun p => (p.2.uuid, p.2.index))).find?
          (fun q => q.1 = app.gpu_uuid)) = some (g.uuid, g.index) := by
        show List.find? (fun q => decide (q.1 = app.gpu_uuid)) [(g.uuid, g.index)] = _
        rw [List.find?_cons, decide_eq_true (show (g.uuid, g.index).1 = app.gpu_uuid from hg)]
      rw [this]
      rfl
    have hlist : (s.update_gpu_info [g]).get_enriched_processes =
        [(s.update_gpu_info [g]).enrichOne app] := by
      unfold DataStore.get_enriched_processes
      have hca : (s.update_gpu_info [g]).compute_apps = [app] := happs
      rw [hca]
      rfl
    have hlist0 : s.get_enriched_processes = [s.enrichOne app] := by
      unfold DataStore.get_enriched_processes
      rw [happs]
      rfl
    have hzero : (s.enrichOne app).gpu_idx = 0 :=
      enrichOne_gpu_idx_of_unresolved s app hno
    rw [hlist, hlist0, List.map_cons, List.map_nil, List.map_cons, List.map_nil,
      hgidx, hzero]
    exact ⟨rfl, rfl⟩

/-- Witness for claim C4: a store with one VRAM row for uuid GPU-aaa and
no device info — the row joins to device 0; after a device-info refresh
binding GPU-aaa to index 1, the same query joins it to device 1. -/
theorem claim4_uuid_fallback_wit :
    (∃ row ∈ ((DataStore.new 300).update_compute_apps [appC3]).get_enriched_processes,
      row.pid = appC3.pid ∧ row.gpu_idx = 0 ∧ row.vram_mib = appC3.vram_used_mib) ∧
    ((((DataStore.new 300).update_compute_apps [appC3]).update_gpu_info
        [gpuInfoC3]).get_enriched_processes).map (fun r => r.gpu_idx) = [gpuInfoC3.index] ∧
    (((DataStore.new 300).update_compute_apps [appC3]).get_enriched_processes).map
      (fun r => r.gpu_idx) = [0] :=
  have h := claim4_uuid_fallback ((DataStore.new 300).update_compute_apps [appC3]) appC3
    gpuInfoC3 (by decide) (by decide)
  ⟨h.1, h.2 (by decide) rfl rfl⟩

/-- Claim C5: the enriched view has exactly one row per current ComputeApp
entry; a row with no matching pmon or ps data still appears, with those
fields defaulted (absent SM%, zero CPU, zero RSS, empty elapsed). -/
theorem claim5_membership (s : DataStore) (app : ComputeApp)
    (happ : app ∈ s.compute_apps)
    (hpm : ∀ p ∈ s.processes, p.1.2 ≠ app.pid)
    (hsy : ∀ q ∈ s.process_sys_info, q.1 ≠ app.pid) :
    (∀ t : DataStore, (t.get_enriched_processes).length = t.compute_apps.length) ∧
    (∃ row ∈ s.get_enriched_processes,
      row.pid = app.pid ∧ row.vram_mib = app.vram_used_mib ∧ row.sm_util = none ∧
      row.cpu_percent = 0 ∧ row.rss_mb = 0 ∧ row.elapsed = "") := by
  constructor
  · intro t
    unfold DataStore.get_enriched_processes
    rw [List.length_insertionSort, List.length_map]
  · obtain ⟨hsm, hcpu, hrss, hel⟩ := enrichOne_defaults s app hpm hsy
    exact ⟨s.enrichOne app, (mem_get_enriched s _).mpr ⟨app, happ, rfl⟩, rfl, rfl,
      hsm, hcpu, hrss, hel⟩

/-- Witness for claim C5: one VRAM row, empty pmon and ps maps — the row
is present with defaulted fields. -/
theorem claim5_membership_wit :
    ((((DataStore.new 300).update_compute_apps [appC3]).get_enriched_processes).length =
      ((DataStore.new 300).update_compute_apps [appC3]).compute_apps.length) ∧
    (∃ row ∈ ((DataStore.new 300).update_compute_apps [appC3]).get_enriched_processes,
      row.pid = appC3.pid ∧ row.vram_mib = appC3.vram_used_mib ∧ row.sm_util = none ∧
      row.cpu_percent = 0 ∧ row.rss_mb = 0 ∧ row.elapsed = "") :=
  have h := claim5_membership ((DataStore.new 300).update_compute_apps [appC3]) appC3
    (by decide) (by decide) (by decide)
  ⟨h.1 ((DataStore.new 300).update_compute_apps [appC3]), h.2⟩

/-- Claim C10: every enriched row's command is the final `/`-separated
component of the originating ComputeApp's name; splitting always yields a
final component, and a name without `/` is its own final component. -/
theorem claim10_command_basename (s : DataStore) (row : EnrichedProcess)
    (hrow : row ∈ s.get_enriched_processes) :
    (∃ app ∈ s.compute_apps, row.pid = app.pid ∧
      row.command = lastSlashComponent app.name) ∧
    (∀ name : String, (splitChar '/' name.toList).getLast? =
      some (lastSlashComponent name).toList) ∧
    (∀ name : String, '/' ∉ name.toList → lastSlashComponent name = name) := by
  refine ⟨?_, ?_, ?_⟩
  · obtain ⟨app, happ, heq⟩ := (mem_get_enriched s row).mp hrow
    exact ⟨app, happ, by rw [← heq]; exact ⟨rfl, rfl⟩⟩
  · intro name
    unfold lastSlashComponent
    cases hsp : (splitChar '/' name.toList).getLast? with
    | none =>
      exact absurd (List.getLast?_eq_none_iff.mp hsp) (splitChar_ne_nil '/' name.toList)
    | some cs => rfl
  · intro name hnm
    unfold lastSlashComponent
    rw [splitChar_of_not_mem '/' name.toList hnm]
    rfl

/-- Witness for claim C10: the join-example row's command is the basename
of "/usr/bin/python". -/
theorem claim10_command_basename_wit :
    (∃ app ∈ storeC3.compute_apps, rowC3.pid = app.pid ∧
      rowC3.command = lastSlashComponent app.name) ∧
    ((splitChar '/' "/usr/bin/python".toList).getLast? =
      some (lastSlashComponent "/usr/bin/python").toList) ∧
    ('/' ∉ "python".toList → lastSlashComponent "python" = "python") :=
  have hmem : rowC3 ∈ storeC3.get_enriched_processes := by
    have heq : storeC3.get_enriched_processes = [rowC3] := rfl
    rw [heq]
    exact List.mem_singleton_self rowC3
  have h := claim10_command_basename storeC3 rowC3 hmem
  ⟨h.1, h.2.1 "/usr/bin/python", fun _ => h.2.2 "python" (by decide)⟩
/-- Claim C7: the sample dmon line parses to exactly the documented
record — sentinel `"-"` tokens become absent values (`parse_optional`
maps the sentinel to `none`), and a line whose device index parses and
which has its 12 fields always yields a record, whatever sentinels the
optional fields hold. -/
theorem claim7_dmon_parse :
    GpuSample.parse_line "0 69 13 - 100 30 0 0 - - 3615 1531" =
      some { gpu_idx := 0, power_w := some 69, gpu_temp_c := some 13, mem_temp_c := none,
             sm_util := some 100, mem_util := some 30, enc_util := some 0,
             dec_util := some 0, jpg_util := none, ofa_util := none,
             mem_clock_mhz := some 3615, gpu_clock_mhz := some 1531 } ∧
    GpuSample.parse_optional "-" = none ∧
    (∀ parts : List String, 12 ≤ parts.length → (parseU32 (parts.getD 0 "")).isSome →
      (GpuSample.parseFields parts).isSome) := by
  refine ⟨by decide, by decide, ?_⟩
  intro parts _ hidx
  unfold GpuSample.parseFields
  obtain ⟨n, hn⟩ := Option.isSome_iff_exists.mp hidx
  rw [hn]
  rfl

/-- Witness for claim C7: a row of twelve fields whose optional fields are
all sentinels still parses. -/
theorem claim7_dmon_parse_wit :
    (GpuSample.parseFields
      ["1", "-", "-", "-", "-", "-", "-", "-", "-", "-", "-", "-"]).isSome :=
  claim7_dmon_parse.2.2 ["1", "-", "-", "-", "-", "-", "-", "-", "-", "-", "-", "-"]
    (by decide) (by decide)
